import Mathlib

/-!
Shallow embedding of the task-plan-to-code translation core of the
robotics-task-planner repository (`src/core/code_generator.py`, class
`RobotCodeGenerator`), together with theorems settling the frozen claims
about it.

Conventions of the embedding:
* Python dictionaries that the plan compiler reads (`parameters`,
  `ACTION_ALIASES`, `SUPPORTED_ACTIONS`, `REQUIRED_PARAMETERS`) are
  modelled as association lists in insertion order; key lookup is
  first-match, as for a Python dict with distinct keys.
* Parameter values (JSON-like data produced by the planner) are modelled
  by the inductive type `Value`: integers, strings and lists.  Python
  floats, booleans and nested dictionaries are outside the modelled value
  universe; every value appearing in the spec's examples is covered.
* Python string builtins used by the source (`str.lower`, `str.strip`,
  `float`, `str`, `repr`) are modelled for ASCII data, which covers every
  identifier and example in the repository.
* A Python function that can raise becomes a Lean function into
  `Except GenError _`; each `GenError` constructor corresponds to one
  raise site of the source (or to a builtin conversion failure inside
  `float`).
-/

namespace RobotCodeGen

/-- Model of Python ASCII `str.lower`: an upper-case ASCII letter
(code 65–90) is shifted by 32, every other character is unchanged. -/
def asciiLowerChar (c : Char) : Char :=
  if 65 ≤ c.toNat ∧ c.toNat ≤ 90 then Char.ofNat (c.toNat + 32) else c

/-- Model of Python `str.lower` (ASCII range). -/
def pyLower (s : String) : String :=
  String.mk (s.data.map asciiLowerChar)

/-- The ASCII whitespace characters removed by Python `str.strip()`. -/
def isPySpace (c : Char) : Bool :=
  c = ' ' || c = '\t' || c = '\n' || c = '\r' || c = '\x0b' || c = '\x0c'

/-- Strip leading and trailing whitespace from a character list. -/
def stripChars (l : List Char) : List Char :=
  ((l.dropWhile isPySpace).reverse.dropWhile isPySpace).reverse

/-- Model of Python `str.strip()` (ASCII whitespace). -/
def pyStrip (s : String) : String :=
  String.mk (stripChars s.data)

/-- Parameter values occurring in task plans: integers, strings and
(possibly nested) lists.  Python tuples are identified with lists, which
is adequate because the source converts a tuple to a list before
rendering it. -/
inductive Value where
  | vInt (n : Int)
  | vStr (s : String)
  | vList (xs : List Value)

mutual

/-- Model of Python `repr` on the modelled value universe: integers print
as themselves, strings are wrapped in single quotes (the embedding covers
strings without quote or escape characters), lists print their elements'
reprs separated by a comma and a space. -/
def pyRepr : Value → String
  | .vInt n => toString n
  | .vStr s => "\x27" ++ s ++ "\x27"
  | .vList xs => "[" ++ pyReprList xs ++ "]"

/-- Comma-separated reprs of a list of values. -/
def pyReprList : List Value → String
  | [] => ""
  | [v] => pyRepr v
  | v :: w :: vs => pyRepr v ++ ", " ++ pyReprList (w :: vs)

end

/-- Model of Python `str` on the modelled value universe: like `repr`
except that a string converts to itself unquoted. -/
def pyStr : Value → String
  | .vInt n => toString n
  | .vStr s => s
  | .vList xs => "[" ++ pyReprList xs ++ "]"

/-- One action step of a task plan: the `action` name and the optional
`parameters` mapping (`none` models a step dictionary with no
`parameters` key at all; `some []` models an empty mapping). -/
structure Step where
  action : String
  parameters : Option (List (String × Value))

/-- A task plan: the objective text and the ordered action sequence. -/
structure TaskPlan where
  objective : String
  action_sequence : List Step

/-- `ACTION_ALIASES` of `RobotCodeGenerator`, in source order. -/
def ACTION_ALIASES : List (String × String) :=
  [("move", "move_to"),
   ("goto", "move_to"),
   ("pickup", "pick_up"),
   ("grab", "pick_up"),
   ("put", "place"),
   ("place_on", "place"),
   ("find", "locate_object"),
   ("locate", "locate_object"),
   ("identify", "identify_object"),
   ("check", "identify_object"),
   ("turn", "rotate"),
   ("open", "open_gripper"),
   ("close", "close_gripper")]

/-- `SUPPORTED_ACTIONS` of `RobotCodeGenerator`: canonical action name to
target invocation name, in source order. -/
def SUPPORTED_ACTIONS : List (String × String) :=
  [("move_to", "self.robot.move_to_position"),
   ("pick_up", "self.robot.pick_object"),
   ("place", "self.robot.place_object"),
   ("locate_object", "self.robot.locate_object"),
   ("identify_object", "self.robot.identify_object"),
   ("rotate", "self.robot.rotate"),
   ("open_gripper", "self.robot.open_gripper"),
   ("close_gripper", "self.robot.close_gripper")]

/-- `REQUIRED_PARAMETERS` of `RobotCodeGenerator`. -/
def REQUIRED_PARAMETERS : List (String × List String) :=
  [("move_to", ["position"]),
   ("pick_up", ["object"]),
   ("place", ["position"]),
   ("locate_object", ["object"]),
   ("identify_object", ["object"]),
   ("rotate", ["angle"]),
   ("open_gripper", []),
   ("close_gripper", [])]

/-- `_normalize_action`: lower-case and strip the input, rewrite the
special token `placeon` to `place_on`, then resolve through
`ACTION_ALIASES` (`dict.get` with the input itself as default). -/
def normalizeAction (action : String) : String :=
  let a := pyStrip (pyLower action)
  let a := if a = "placeon" then "place_on" else a
  (ACTION_ALIASES.lookup a).getD a

/-- The errors `generate_code` can raise.  The first three constructors
are the explicit raise sites of the source (`KeyError` for a step with no
`parameters` field, `ValueError` for an unsupported action, `ValueError`
for missing required parameters); the last two are the failures of the
builtin `float` call inside `_format_parameter_value` (`ValueError` on a
non-numeric string, `TypeError` on a list). -/
inductive GenError where
  | missingField (stepRepr : String)
  | unsupportedAction (originalAction : String) (supportedEnum : String)
  | missingParameters (action : String) (missing : List String)
  | floatValueError (sourceText : String)
  | floatTypeError
deriving DecidableEq

/-- The longest leading run of decimal digits of a character list,
paired with the remainder. -/
def splitDigits : List Char → List Char × List Char
  | [] => ([], [])
  | c :: cs =>
    if c.isDigit then
      let (d, r) := splitDigits cs
      (c :: d, r)
    else ([], c :: cs)

/-- Numeric value of a string of decimal digits (empty gives 0). -/
def natOfDigits (l : List Char) : Nat :=
  l.foldl (fun acc c => acc * 10 + (c.toNat - 48)) 0

/-- A Python float produced by `float()` in this program, kept as the
exact decimal it was built from: sign (distinguishing `-0.0`), integer
part, fraction digits.  The exact decimal is what the theorems reason
about; CPython's binary64 value and its shortest-round-trip `str` agree
with the exact decimal precisely on `inReprDomain`, and no theorem of
this file asserts a rendering outside that domain. -/
structure PyFloatVal where
  neg : Bool
  units : Nat
  frac : List Char
deriving DecidableEq

/-- Parse the body of a float literal after the sign: `digits`,
`digits.digits`, `digits.` or `.digits`. -/
def parseFloatBody (l : List Char) : Option (Nat × List Char) :=
  let (ip, rest) := splitDigits l
  match rest with
  | [] => if ip.isEmpty then none else some (natOfDigits ip, [])
  | '.' :: rest2 =>
    let (fp, rest3) := splitDigits rest2
    if rest3.isEmpty then
      if ip.isEmpty && fp.isEmpty then none else some (natOfDigits ip, fp)
    else none
  | _ => none

/-- Model of Python `float` applied to a string: optional surrounding
whitespace, an optional sign, then one of the decimal forms `digits`,
`digits.digits`, `digits.` or `.digits` — the forms the repository and
its tests exercise.  Exponent, underscore-grouped and inf/nan spellings
are outside the modelled forms (no theorem mentions such a string);
every non-numeric string fails, as `float` does. -/
def pyParseFloat (s : String) : Option PyFloatVal :=
  match stripChars s.data with
  | '+' :: rest => (parseFloatBody rest).map (fun p => ⟨false, p.1, p.2⟩)
  | '-' :: rest => (parseFloatBody rest).map (fun p => ⟨true, p.1, p.2⟩)
  | l => (parseFloatBody l).map (fun p => ⟨false, p.1, p.2⟩)

/-- Model of the builtin `float(value)` call of the source: an integer
converts exactly, keeping its sign (a Python int is never a negative
zero), a string is parsed (failing with `ValueError` on non-numeric
text), a list fails with `TypeError`. -/
def pyFloat : Value → Except GenError PyFloatVal
  | .vInt n => .ok ⟨decide (n < 0), n.natAbs, []⟩
  | .vStr s =>
    match pyParseFloat s with
    | some d => .ok d
    | none => .error (.floatValueError s)
  | .vList _ => .error .floatTypeError

/-- Drop trailing `0` digits of a fraction. -/
def dropTrailingZeros (l : List Char) : List Char :=
  (l.reverse.dropWhile (fun c => c == '0')).reverse

/-- Count of decimal digits of a natural number (1 for 0). -/
def decimalDigitCount (n : Nat) : Nat :=
  (Nat.repr n).length

/-- The decimals on which CPython renders `str(float(...))` as the
normalized exact decimal: at most 15 significant digits — every decimal
of at most 15 significant digits round-trips through binary64, so the
shortest decimal printing to the same double is the input itself — and,
unless the value is zero, magnitude at least 10^-4, below which CPython
switches to scientific notation (the digit bound already keeps the
magnitude under 10^15, far below the 10^16 upper scientific-notation
threshold).  The digit count here is conservative: it counts all
fraction digits and at least one integer digit. -/
def inReprDomain (d : PyFloatVal) : Bool :=
  decimalDigitCount d.units + d.frac.length ≤ 15 &&
  (d.units != 0 || dropTrailingZeros d.frac == [] ||
    (d.frac.take 4).any (fun c => c != '0'))

/-- Model of `str` applied to a float built from an exact decimal: the
sign (printed also for a negative zero), the integer part, a point, then
the fraction with trailing zeros dropped (a single `0` if none remain).
On `inReprDomain` this is exactly CPython's output; an integer input
`n` with `|n| ≤ 2^53` lands in the domain, yielding `n` then `.0`. -/
def renderPyFloat (d : PyFloatVal) : String :=
  (if d.neg then "-" else "") ++ toString d.units ++ "." ++
    (if dropTrailingZeros d.frac = [] then "0"
     else String.mk (dropTrailingZeros d.frac))

/-- `_format_parameter_value`: dispatch on the parameter name.
`position` renders a list value as its literal list text and a string
value as a position-lookup call, any other value falling through to the
default `str` rendering; `object` wraps `str(value)` in single quotes;
`angle` renders `str(float(value))`; every other name renders
`str(value)`. -/
def formatParameterValue (paramName : String) (value : Value) : Except GenError String :=
  if paramName = "position" then
    match value with
    | .vList xs => .ok (pyStr (.vList xs))
    | .vStr s => .ok ("self.robot.get_position(\x27" ++ s ++ "\x27)")
    | v => .ok (pyStr v)
  else if paramName = "object" then
    .ok ("\x27" ++ pyStr value ++ "\x27")
  else if paramName = "angle" then
    match pyFloat value with
    | .ok d => .ok (renderPyFloat d)
    | .error e => .error e
  else
    .ok (pyStr value)

/-- Python membership test `p in params` for the parameters dict. -/
def hasParam (params : List (String × Value)) (p : String) : Bool :=
  params.any (fun q => q.1 == p)

/-- Repr of the entries of a parameters dict, in insertion order. -/
def pyReprParamsEntries : List (String × Value) → String
  | [] => ""
  | [(k, v)] => "\x27" ++ k ++ "\x27: " ++ pyRepr v
  | (k, v) :: e :: rest =>
    "\x27" ++ k ++ "\x27: " ++ pyRepr v ++ ", " ++ pyReprParamsEntries (e :: rest)

/-- Repr of a step dictionary, used in the missing-field error message
(f-string interpolation of `step`). -/
def pyReprStep (step : Step) : String :=
  match step.parameters with
  | none => "\x7b\x27action\x27: \x27" ++ step.action ++ "\x27\x7d"
  | some ps =>
    "\x7b\x27action\x27: \x27" ++ step.action ++ "\x27, \x27parameters\x27: \x7b" ++
      pyReprParamsEntries ps ++ "\x7d\x7d"

/-- Lexicographic code-point comparison of character lists: the string
order Python `sorted` uses. -/
def charListLt : List Char → List Char → Bool
  | [], [] => false
  | [], _ :: _ => true
  | _ :: _, [] => false
  | a :: as, b :: bs =>
    if a.toNat < b.toNat then true
    else if b.toNat < a.toNat then false
    else charListLt as bs

/-- Strict lexicographic order on strings. -/
def strLtB (a b : String) : Bool :=
  charListLt a.data b.data

/-- Insert a string into a sorted list of strings (ascending). -/
def insertSorted (s : String) : List String → List String
  | [] => [s]
  | t :: ts => if strLtB t s then t :: insertSorted s ts else s :: t :: ts

/-- Insertion sort on strings, modelling Python `sorted`. -/
def sortStrings (l : List String) : List String :=
  l.foldr insertSorted []

/-- Distinct elements with the first occurrence kept, the effect of
Python `set` on a list (order is irrelevant once sorted). -/
def dedupKeep (seen : List String) : List String → List String
  | [] => []
  | a :: as => if seen.contains a then dedupKeep seen as else a :: dedupKeep (a :: seen) as

/-- The enumeration built at the unsupported-action raise site:
`", ".join(sorted(set(list(SUPPORTED_ACTIONS) + list(ACTION_ALIASES))))`. -/
def supportedActionsJoined : String :=
  String.intercalate ", "
    (sortStrings (dedupKeep [] (SUPPORTED_ACTIONS.map Prod.fst ++ ACTION_ALIASES.map Prod.fst)))

/-- The message text each `GenError` carries, rendered exactly as the
source's f-strings (or the builtin `float` failure text). -/
def GenError.message : GenError → String
  | .missingField stepRepr =>
    "Missing \x27parameters\x27 field in action step: " ++ stepRepr
  | .unsupportedAction originalAction supportedEnum =>
    "Unsupported action: " ++ originalAction ++ ". Supported actions are: " ++ supportedEnum
  | .missingParameters action missing =>
    "Missing required parameters for action \x27" ++ action ++ "\x27: " ++
      String.intercalate ", " missing
  | .floatValueError sourceText =>
    "could not convert string to float: \x27" ++ sourceText ++ "\x27"
  | .floatTypeError =>
    "float() argument must be a string or a real number, not \x27list\x27"

/-- Format the supplied parameters (all of them, in mapping order) as
`name=value` fragments, propagating the first formatting failure. -/
def formatParams : List (String × Value) → Except GenError (List String)
  | [] => .ok []
  | (n, v) :: rest =>
    match formatParameterValue n v with
    | .error e => .error e
    | .ok f =>
      match formatParams rest with
      | .error e => .error e
      | .ok fs => .ok ((n ++ "=" ++ f) :: fs)

/-- The body of the per-step loop of `generate_code`: validate the
`parameters` field, normalize the action, check support, check required
parameters, then emit the indented invocation line. -/
def generateStepLine (step : Step) : Except GenError String :=
  match step.parameters with
  | none => .error (.missingField (pyReprStep step))
  | some params =>
    let action := normalizeAction step.action
    match SUPPORTED_ACTIONS.lookup action with
    | none => .error (.unsupportedAction step.action supportedActionsJoined)
    | some target =>
      let requiredParams := (REQUIRED_PARAMETERS.lookup action).getD []
      let missingParams := requiredParams.filter (fun p => !hasParam params p)
      if missingParams = [] then
        match formatParams params with
        | .error e => .error e
        | .ok paramStrings =>
          .ok ("        " ++ target ++ "(" ++ String.intercalate ", " paramStrings ++ ")")
      else
        .error (.missingParameters action missingParams)

/-- The loop of `generate_code` over the action sequence, collecting one
invocation line per step and aborting on the first failure. -/
def generateLines : List Step → Except GenError (List String)
  | [] => .ok []
  | step :: rest =>
    match generateStepLine step with
    | .error e => .error e
    | .ok line =>
      match generateLines rest with
      | .error e => .error e
      | .ok lines => .ok (line :: lines)

/-- The three fixed lines pushed before the loop of `generate_code`. -/
def headerLines : List String :=
  ["# Auto-generated Robotic Task Execution Script",
   "def execute_robot_task():",
   "    try:"]

/-- The three fixed lines appended after the loop of `generate_code`. -/
def trailerLines : List String :=
  ["    except Exception as e:",
   "        logging.error(f\x27Task execution failed: \x7be\x7d\x27)",
   "        raise"]

/-- `generate_code`: build the header, one line per step, the
error-handling trailer, and join with newlines; any step failure aborts
with that error and no script text. -/
def generate_code (taskPlan : TaskPlan) : Except GenError String :=
  match generateLines taskPlan.action_sequence with
  | .error e => .error e
  | .ok lines => .ok (String.intercalate "\n" (headerLines ++ lines ++ trailerLines))

/-! ### String infrastructure for the proofs -/

theorem data_append (a b : String) : (a ++ b).data = a.data ++ b.data := by
  cases a; cases b; rfl

theorem strAppend_assoc (a b c : String) : a ++ b ++ c = a ++ (b ++ c) := by
  cases a; cases b; cases c
  show String.append (String.append _ _) _ = String.append _ (String.append _ _)
  simp [String.append]

theorem strAppend_empty (a : String) : a ++ "" = a := by
  cases a
  show String.append _ _ = _
  simp [String.append]

theorem strEmpty_append (a : String) : "" ++ a = a := by
  cases a
  show String.append _ _ = _
  simp [String.append]

/-- Substring containment: the spec's "the script text contains …". -/
def strContains (sub s : String) : Prop :=
  sub.data <:+: s.data

theorem strContains_parts (p sub t s : String) (h : p ++ sub ++ t = s) :
    strContains sub s := by
  subst h
  simp [strContains, data_append]

/-- Tail of a separator join: the separator before each element. -/
def joinSepTail (sep : String) : List String → String
  | [] => ""
  | a :: as => sep ++ a ++ joinSepTail sep as

theorem intercalate_go_eq (sep : String) :
    ∀ (l : List String) (acc : String),
      String.intercalate.go acc sep l = acc ++ joinSepTail sep l
  | [], acc => by simp [String.intercalate.go, joinSepTail, strAppend_empty]
  | a :: as, acc => by
    rw [String.intercalate.go, intercalate_go_eq sep as (acc ++ sep ++ a)]
    simp [joinSepTail, strAppend_assoc]

theorem intercalate_cons (sep a : String) (as : List String) :
    String.intercalate sep (a :: as) = a ++ joinSepTail sep as := by
  rw [String.intercalate]
  exact intercalate_go_eq sep as a

theorem joinSepTail_append (sep : String) (l1 l2 : List String) :
    joinSepTail sep (l1 ++ l2) = joinSepTail sep l1 ++ joinSepTail sep l2 := by
  induction l1 with
  | nil => simp [joinSepTail, strEmpty_append]
  | cons a as ih => simp [joinSepTail, ih, strAppend_assoc]

/-- The fixed header text of every emitted script. -/
def headerText : String :=
  String.intercalate "\n" headerLines

/-- The fixed trailer text of every emitted script. -/
def trailerText : String :=
  String.intercalate "\n" trailerLines

/-- Normal form of the joined script: header, newline-prefixed invocation
lines, trailer. -/
theorem script_shape (lines : List String) :
    String.intercalate "\n" (headerLines ++ lines ++ trailerLines) =
      headerText ++ (joinSepTail "\n" lines ++ ("\n" ++ trailerText)) := by
  simp only [headerLines, trailerLines, headerText, trailerText, List.cons_append,
    List.nil_append, intercalate_cons, joinSepTail, joinSepTail_append]
  simp [strAppend_assoc, strAppend_empty, strEmpty_append]
  simp [← strAppend_assoc]

/-! ### Normalization lemmas -/

theorem toNat_ofNat_shift {n : Nat} (h1 : 65 ≤ n) (h2 : n ≤ 90) :
    (Char.ofNat (n + 32)).toNat = n + 32 := by
  interval_cases n <;> decide

theorem asciiLowerChar_idem (c : Char) :
    asciiLowerChar (asciiLowerChar c) = asciiLowerChar c := by
  unfold asciiLowerChar
  by_cases h : 65 ≤ c.toNat ∧ c.toNat ≤ 90
  · rw [if_pos h, if_neg (by rw [toNat_ofNat_shift h.1 h.2]; omega)]
  · rw [if_neg h, if_neg h]

theorem map_eq_self_of_mem {f : Char → Char} {l : List Char}
    (h : ∀ x ∈ l, f x = x) : l.map f = l := by
  induction l with
  | nil => rfl
  | cons a as ih =>
    rw [List.map_cons, h a (List.mem_cons_self a as),
      ih (fun c hc => h c (List.mem_cons_of_mem a hc))]

theorem mem_stripChars {c : Char} {l : List Char} (h : c ∈ stripChars l) : c ∈ l := by
  unfold stripChars at h
  rw [List.mem_reverse] at h
  have h2 := (List.dropWhile_sublist isPySpace).subset h
  rw [List.mem_reverse] at h2
  exact (List.dropWhile_sublist isPySpace).subset h2

theorem dropWhile_eq_self_of_head? {α : Type} {p : α → Bool} {l : List α}
    (h : ∀ a, l.head? = some a → p a = false) : l.dropWhile p = l := by
  cases l with
  | nil => rfl
  | cons a as => simp [List.dropWhile_cons, h a rfl]

theorem stripChars_idem (l : List Char) : stripChars (stripChars l) = stripChars l := by
  have hz_self : ∀ (w : List Char),
      (w.dropWhile isPySpace).dropWhile isPySpace = w.dropWhile isPySpace := by
    intro w
    apply dropWhile_eq_self_of_head?
    intro a ha
    have h5 := List.head?_dropWhile_not isPySpace w
    rw [ha] at h5
    exact h5
  have hrev_head : ∀ a, (stripChars l).head? = some a → isPySpace a = false := by
    intro a ha
    unfold stripChars at ha
    rw [List.head?_reverse] at ha
    obtain ⟨q, hq⟩ := List.dropWhile_suffix (l := (l.dropWhile isPySpace).reverse) isPySpace
    have h2 : ((l.dropWhile isPySpace).reverse).getLast? = some a := by
      rw [← hq, List.getLast?_append, ha]
      rfl
    rw [List.getLast?_reverse] at h2
    have h4 := List.head?_dropWhile_not isPySpace l
    rw [h2] at h4
    exact h4
  show (((stripChars l).dropWhile isPySpace).reverse.dropWhile isPySpace).reverse = _
  rw [dropWhile_eq_self_of_head? hrev_head]
  unfold stripChars
  rw [List.reverse_reverse, hz_self]

theorem pyLower_fix_stripLower (s : String) :
    pyLower (pyStrip (pyLower s)) = pyStrip (pyLower s) := by
  unfold pyStrip pyLower
  apply congrArg String.mk
  apply map_eq_self_of_mem
  intro x hx
  have hx2 : x ∈ (s.data.map asciiLowerChar) := mem_stripChars hx
  obtain ⟨y, _, rfl⟩ := List.mem_map.mp hx2
  exact asciiLowerChar_idem y

theorem stripLower_idem (s : String) :
    pyStrip (pyLower (pyStrip (pyLower s))) = pyStrip (pyLower s) := by
  rw [pyLower_fix_stripLower]
  show String.mk (stripChars (stripChars (pyLower s).data)) = _
  exact congrArg String.mk (stripChars_idem _)

theorem lookup_mem {l : List (String × String)} {k v : String}
    (h : l.lookup k = some v) : (k, v) ∈ l := by
  induction l with
  | nil => simp [List.lookup] at h
  | cons p ps ih =>
    obtain ⟨k2, v2⟩ := p
    rw [List.lookup] at h
    by_cases hk : k == k2
    · simp only [hk] at h
      have hkk := eq_of_beq hk
      subst hkk
      injection h with h
      subst h
      exact List.mem_cons_self _ _
    · simp only [Bool.not_eq_true] at hk
      rw [hk] at h
      exact List.mem_cons_of_mem _ (ih h)

/-- Unfolding equation of `_normalize_action`: strip and lower-case,
apply the `placeon` rewrite, then `ACTION_ALIASES.get(a, a)`. -/
theorem normalizeAction_eq (s : String) :
    normalizeAction s =
      (ACTION_ALIASES.lookup
        (if pyStrip (pyLower s) = "placeon" then "place_on" else pyStrip (pyLower s))).getD
        (if pyStrip (pyLower s) = "placeon" then "place_on" else pyStrip (pyLower s)) := rfl

/-- C3: every recognized alias maps to its canonical action; the input is
first lower-cased and trimmed (so normalization is case- and
whitespace-insensitive, e.g. on "  MOVE_TO "); the special token
`placeon` is rewritten to `place_on` before alias lookup (hence resolves
to `place`); and any trimmed lower-cased string outside the alias table
passes through unchanged.  `normalizeAction` is a total Lean function,
so the embedding exhibits that no error is raised. -/
theorem C3_normalize_aliases :
    (∀ p ∈ ACTION_ALIASES, normalizeAction p.1 = p.2) ∧
    normalizeAction "  MOVE_TO " = "move_to" ∧
    (∀ s : String, normalizeAction s = normalizeAction (pyStrip (pyLower s))) ∧
    (∀ s : String, pyStrip (pyLower s) = "placeon" → normalizeAction s = "place") ∧
    (∀ s : String, pyStrip (pyLower s) ≠ "placeon" →
        ACTION_ALIASES.lookup (pyStrip (pyLower s)) = none →
        normalizeAction s = pyStrip (pyLower s)) := by
  refine ⟨by decide, by decide, ?_, ?_, ?_⟩
  · intro s
    rw [normalizeAction_eq s, normalizeAction_eq (pyStrip (pyLower s)), stripLower_idem]
  · intro s h
    rw [normalizeAction_eq s, if_pos h]
    rfl
  · intro s h1 h2
    rw [normalizeAction_eq s, if_neg h1, h2]
    rfl

/-- C3 witness: the alias clause at `grab`, the insensitivity example,
and the passthrough clause at `unknown`. -/
theorem C3_normalize_aliases_witness :
    normalizeAction "grab" = "pick_up" ∧
    normalizeAction "  MOVE_TO " = "move_to" ∧
    normalizeAction "unknown" = "unknown" :=
  ⟨C3_normalize_aliases.1 ("grab", "pick_up") (by decide),
   C3_normalize_aliases.2.1,
   C3_normalize_aliases.2.2.2.2 "unknown" (by decide) (by decide)⟩

/-- C10: `normalizeAction` is idempotent; moreover its output is never
itself a key of the alias table (no alias target is an alias key). -/
theorem C10_normalize_idempotent (s : String) :
    normalizeAction (normalizeAction s) = normalizeAction s ∧
    ACTION_ALIASES.lookup (normalizeAction s) = none := by
  have htargets : ∀ c ∈ ACTION_ALIASES.map Prod.snd,
      normalizeAction c = c ∧ ACTION_ALIASES.lookup c = none := by decide
  by_cases hpl : pyStrip (pyLower s) = "placeon"
  · have h : normalizeAction s = "place" := by
      rw [normalizeAction_eq s, if_pos hpl]
      rfl
    rw [h]
    exact ⟨by decide, by decide⟩
  · cases hl : ACTION_ALIASES.lookup (pyStrip (pyLower s)) with
    | some c =>
      have h : normalizeAction s = c := by
        rw [normalizeAction_eq s, if_neg hpl, hl]
        rfl
      rw [h]
      exact htargets c (List.mem_map_of_mem Prod.snd (lookup_mem hl))
    | none =>
      have h : normalizeAction s = pyStrip (pyLower s) := by
        rw [normalizeAction_eq s, if_neg hpl, hl]
        rfl
      rw [h]
      refine ⟨?_, hl⟩
      rw [normalizeAction_eq, stripLower_idem, if_neg hpl, hl]
      rfl

/-! ### Error classification -/

/-- The three error kinds of the spec's taxonomy (§7). -/
def isClassifiedError : GenError → Bool
  | .missingField _ => true
  | .unsupportedAction _ _ => true
  | .missingParameters _ _ => true
  | _ => false

/-- Failures of the builtin `float` conversion inside the formatter. -/
def isFloatConversionError : GenError → Bool
  | .floatValueError _ => true
  | .floatTypeError => true
  | _ => false

/-- Discriminator for the missing-field error kind. -/
def GenError.isMissingField : GenError → Bool
  | .missingField _ => true
  | _ => false

theorem formatParameterValue_error_conv (n : String) (v : Value) (e : GenError)
    (h : formatParameterValue n v = .error e) : isFloatConversionError e = true := by
  by_cases h1 : n = "position"
  · cases v <;> simp [formatParameterValue, h1] at h
  · by_cases h2 : n = "object"
    · simp [formatParameterValue, h1, h2] at h
    · by_cases h3 : n = "angle"
      · cases v with
        | vInt m => simp [formatParameterValue, h1, h2, h3, pyFloat] at h
        | vStr s =>
          simp only [formatParameterValue, h1, h2, h3, if_false, if_true, if_neg, if_pos,
            pyFloat] at h
          cases hp : pyParseFloat s with
          | some d => rw [hp] at h; simp at h
          | none =>
            rw [hp] at h
            injection h with h
            subst h
            rfl
        | vList xs =>
          simp only [formatParameterValue, h1, h2, h3, pyFloat] at h
          injection h with h
          subst h
          rfl
      · simp [formatParameterValue, h1, h2, h3] at h

theorem formatParams_error_conv (params : List (String × Value)) (e : GenError)
    (h : formatParams params = .error e) : isFloatConversionError e = true := by
  induction params with
  | nil => simp [formatParams] at h
  | cons p ps ih =>
    obtain ⟨n, v⟩ := p
    unfold formatParams at h
    cases hf : formatParameterValue n v with
    | error e2 =>
      rw [hf] at h
      injection h with h
      subst h
      exact formatParameterValue_error_conv n v e2 hf
    | ok f =>
      rw [hf] at h
      cases hfp : formatParams ps with
      | error e2 =>
        rw [hfp] at h
        injection h with h
        subst h
        exact ih hfp
      | ok fs => rw [hfp] at h; simp at h

/-- Classification of every error raised by the per-step loop body. -/
theorem stepLine_error_class (step : Step) (e : GenError)
    (h : generateStepLine step = .error e) :
    (step.parameters = none ∧ e = .missingField (pyReprStep step)) ∨
    (e = .unsupportedAction step.action supportedActionsJoined) ∨
    (∃ a m, e = .missingParameters a m) ∨
    isFloatConversionError e = true := by
  obtain ⟨action, parameters⟩ := step
  cases parameters with
  | none =>
    left
    refine ⟨rfl, ?_⟩
    simp only [generateStepLine] at h
    injection h with h
    exact h.symm
  | some params =>
    simp only [generateStepLine] at h
    split at h
    · injection h with h
      right; left
      exact h.symm
    · split at h
      · cases hf : formatParams params with
        | error e2 =>
          rw [hf] at h
          injection h with h
          subst h
          right; right; right
          exact formatParams_error_conv _ _ hf
        | ok fs => rw [hf] at h; simp at h
      · injection h with h
        right; right; left
        exact ⟨_, _, h.symm⟩

/-! ### The compiler claims -/

/-- C2 counterexample: a plan whose `rotate` step carries the non-numeric
angle value "fast" aborts with the `float` conversion `ValueError`, which
is none of the three classified error kinds. -/
theorem C2_counterexample :
    generate_code ⟨"x", [⟨"rotate", some [("angle", Value.vStr "fast")]⟩]⟩ =
      .error (.floatValueError "fast") ∧
    isClassifiedError (.floatValueError "fast") = false :=
  ⟨rfl, rfl⟩

/-- C2 (amended): compilation either returns the complete script —
header, newline-joined body, trailer — or aborts with one of the three
classified errors (missing-field, unsupported-action,
missing-parameters) or with a float-conversion error raised while
formatting an `angle` value; an error result carries no script text. -/
theorem C2_error_taxonomy (plan : TaskPlan) :
    (∃ lines, generate_code plan =
        .ok (headerText ++ (joinSepTail "\n" lines ++ ("\n" ++ trailerText)))) ∨
    (∃ e, generate_code plan = .error e ∧
        (isClassifiedError e = true ∨ isFloatConversionError e = true)) := by
  cases h : generateLines plan.action_sequence with
  | ok lines =>
    left
    refine ⟨lines, ?_⟩
    rw [show generate_code plan =
        .ok (String.intercalate "\n" (headerLines ++ lines ++ trailerLines)) by
      simp [generate_code, h]]
    rw [script_shape]
  | error e =>
    right
    refine ⟨e, by simp [generate_code, h], ?_⟩
    cases e <;> simp [isClassifiedError, isFloatConversionError]

/-- One line is collected per successfully compiled step. -/
theorem generateLines_length (steps : List Step) (lines : List String)
    (h : generateLines steps = .ok lines) : lines.length = steps.length := by
  induction steps generalizing lines with
  | nil =>
    simp only [generateLines] at h
    injection h with h
    subst h
    rfl
  | cons st sts ih =>
    simp only [generateLines] at h
    cases hs : generateStepLine st with
    | error e => rw [hs] at h; simp at h
    | ok line =>
      rw [hs] at h
      cases hr : generateLines sts with
      | error e => rw [hr] at h; simp at h
      | ok rest =>
        rw [hr] at h
        injection h with h
        subst h
        simp [ih rest hr]

/-- A single-step plan whose step compiles to a line containing `target`
compiles to a script containing `target`. -/
theorem contains_of_line (obj target pre post line : String) (step : Step)
    (h : generateStepLine step = .ok line)
    (hshape : line = pre ++ (target ++ post)) :
    ∃ s, generate_code ⟨obj, [step]⟩ = .ok s ∧ strContains target s := by
  subst hshape
  refine ⟨String.intercalate "\n"
      (headerLines ++ [pre ++ (target ++ post)] ++ trailerLines), ?_, ?_⟩
  · simp [generate_code, generateLines, h]
  · rw [script_shape]
    apply strContains_parts (headerText ++ ("\n" ++ pre)) target
      (post ++ ("\n" ++ trailerText))
    simp only [joinSepTail, strAppend_assoc, strAppend_empty, strEmpty_append]

/-- A canonical action with a single required parameter, supplied exactly
that parameter with a formattable value, compiles and the script contains
the target invocation name. -/
theorem c1_single (c target pname obj : String) (v : Value) (f : String)
    (hsupl : SUPPORTED_ACTIONS.lookup (normalizeAction c) = some target)
    (hreq : (REQUIRED_PARAMETERS.lookup (normalizeAction c)).getD [] = [pname])
    (hf : formatParameterValue pname v = .ok f) :
    ∃ s, generate_code ⟨obj, [⟨c, some [(pname, v)]⟩]⟩ = .ok s ∧ strContains target s := by
  have hmiss : List.filter (fun p => !hasParam [(pname, v)] p) [pname] = [] := by
    simp [hasParam]
  have hfp : formatParams [(pname, v)] = .ok [pname ++ "=" ++ f] := by
    simp [formatParams, hf]
  have hline : generateStepLine ⟨c, some [(pname, v)]⟩ =
      .ok ("        " ++ target ++ "(" ++
        String.intercalate ", " [pname ++ "=" ++ f] ++ ")") := by
    simp only [generateStepLine, hsupl, hreq, hmiss, hfp, if_pos]
  exact contains_of_line obj target "        "
    ("(" ++ (String.intercalate ", " [pname ++ "=" ++ f] ++ ")")) _ _ hline
    (by simp only [strAppend_assoc])

/-- A canonical action with no required parameters and an empty supplied
mapping compiles and the script contains the target invocation name. -/
theorem c1_noparams (c target obj : String)
    (hsupl : SUPPORTED_ACTIONS.lookup (normalizeAction c) = some target)
    (hreq : (REQUIRED_PARAMETERS.lookup (normalizeAction c)).getD [] = []) :
    ∃ s, generate_code ⟨obj, [⟨c, some []⟩]⟩ = .ok s ∧ strContains target s := by
  have hline : generateStepLine ⟨c, some []⟩ =
      .ok ("        " ++ target ++ "(" ++ String.intercalate ", " [] ++ ")") := by
    simp only [generateStepLine, hsupl, hreq, formatParams, List.filter_nil, if_pos]
  exact contains_of_line obj target "        "
    ("(" ++ (String.intercalate ", " [] ++ ")")) _ _ hline
    (by simp only [strAppend_assoc])

/-- C1: for every canonical action and its target invocation name,
compiling a single-step plan that supplies exactly the action's required
parameters, with values the formatting rules accept, succeeds and the
script text contains the target invocation name. -/
theorem C1_canonical_actions (c target obj : String) (params : List (String × Value))
    (hsup : (c, target) ∈ SUPPORTED_ACTIONS)
    (hkeys : params.map Prod.fst = (REQUIRED_PARAMETERS.lookup c).getD [])
    (hfmt : ∀ p ∈ params, ∃ f, formatParameterValue p.1 p.2 = Except.ok f) :
    ∃ s, generate_code ⟨obj, [⟨c, some params⟩]⟩ = .ok s ∧ strContains target s := by
  simp only [SUPPORTED_ACTIONS, List.mem_cons, List.not_mem_nil, or_false,
    Prod.mk.injEq] at hsup
  rcases hsup with h8|h8|h8|h8|h8|h8|h8|h8 <;> obtain ⟨rfl, rfl⟩ := h8
  · rw [(show (List.lookup "move_to" REQUIRED_PARAMETERS).getD [] = ["position"]
      from rfl)] at hkeys
    cases params with
    | nil => simp at hkeys
    | cons p ps =>
      obtain ⟨n, v⟩ := p
      cases ps with
      | cons q qs => simp at hkeys
      | nil =>
        obtain ⟨f, hf⟩ := hfmt (n, v) (by simp)
        simp at hkeys
        subst hkeys
        exact c1_single _ _ _ obj v f (by decide) (by decide) hf
  · rw [(show (List.lookup "pick_up" REQUIRED_PARAMETERS).getD [] = ["object"]
      from rfl)] at hkeys
    cases params with
    | nil => simp at hkeys
    | cons p ps =>
      obtain ⟨n, v⟩ := p
      cases ps with
      | cons q qs => simp at hkeys
      | nil =>
        obtain ⟨f, hf⟩ := hfmt (n, v) (by simp)
        simp at hkeys
        subst hkeys
        exact c1_single _ _ _ obj v f (by decide) (by decide) hf
  · rw [(show (List.lookup "place" REQUIRED_PARAMETERS).getD [] = ["position"]
      from rfl)] at hkeys
    cases params with
    | nil => simp at hkeys
    | cons p ps =>
      obtain ⟨n, v⟩ := p
      cases ps with
      | cons q qs => simp at hkeys
      | nil =>
        obtain ⟨f, hf⟩ := hfmt (n, v) (by simp)
        simp at hkeys
        subst hkeys
        exact c1_single _ _ _ obj v f (by decide) (by decide) hf
  · rw [(show (List.lookup "locate_object" REQUIRED_PARAMETERS).getD [] = ["object"]
      from rfl)] at hkeys
    cases params with
    | nil => simp at hkeys
    | cons p ps =>
      obtain ⟨n, v⟩ := p
      cases ps with
      | cons q qs => simp at hkeys
      | nil =>
        obtain ⟨f, hf⟩ := hfmt (n, v) (by simp)
        simp at hkeys
        subst hkeys
        exact c1_single _ _ _ obj v f (by decide) (by decide) hf
  · rw [(show (List.lookup "identify_object" REQUIRED_PARAMETERS).getD [] = ["object"]
      from rfl)] at hkeys
    cases params with
    | nil => simp at hkeys
    | cons p ps =>
      obtain ⟨n, v⟩ := p
      cases ps with
      | cons q qs => simp at hkeys
      | nil =>
        obtain ⟨f, hf⟩ := hfmt (n, v) (by simp)
        simp at hkeys
        subst hkeys
        exact c1_single _ _ _ obj v f (by decide) (by decide) hf
  · rw [(show (List.lookup "rotate" REQUIRED_PARAMETERS).getD [] = ["angle"]
      from rfl)] at hkeys
    cases params with
    | nil => simp at hkeys
    | cons p ps =>
      obtain ⟨n, v⟩ := p
      cases ps with
      | cons q qs => simp at hkeys
      | nil =>
        obtain ⟨f, hf⟩ := hfmt (n, v) (by simp)
        simp at hkeys
        subst hkeys
        exact c1_single _ _ _ obj v f (by decide) (by decide) hf
  · rw [(show (List.lookup "open_gripper" REQUIRED_PARAMETERS).getD [] = []
      from rfl)] at hkeys
    cases params with
    | nil => exact c1_noparams _ _ obj (by decide) (by decide)
    | cons p ps => simp at hkeys
  · rw [(show (List.lookup "close_gripper" REQUIRED_PARAMETERS).getD [] = []
      from rfl)] at hkeys
    cases params with
    | nil => exact c1_noparams _ _ obj (by decide) (by decide)
    | cons p ps => simp at hkeys

/-- C1 witness: the `rotate` action with exactly its required `angle`
parameter. -/
theorem C1_canonical_actions_witness :
    ∃ s, generate_code ⟨"obj", [⟨"rotate", some [("angle", Value.vInt 90)]⟩]⟩ =
        .ok s ∧ strContains "self.robot.rotate" s :=
  C1_canonical_actions "rotate" "self.robot.rotate" "obj" [("angle", Value.vInt 90)]
    (by decide) (by decide)
    (fun p hp => by
      simp at hp
      subst hp
      exact ⟨"90.0", rfl⟩)

/-- C4: a step (with a parameters mapping) whose action name normalizes
outside the supported set aborts with the unsupported-action error, whose
message contains the original non-normalized action string followed by
the sorted enumeration of the eight canonical actions and all thirteen
aliases. -/
theorem C4_unsupported_action (obj action : String) (params : List (String × Value))
    (h : SUPPORTED_ACTIONS.lookup (normalizeAction action) = none) :
    generate_code ⟨obj, [⟨action, some params⟩]⟩ =
      .error (.unsupportedAction action supportedActionsJoined) ∧
    GenError.message (.unsupportedAction action supportedActionsJoined) =
      "Unsupported action: " ++ action ++
        ". Supported actions are: check, close, close_gripper, find, goto, grab, identify, identify_object, locate, locate_object, move, move_to, open, open_gripper, pick_up, pickup, place, place_on, put, rotate, turn" ∧
    strContains action (GenError.message (.unsupportedAction action supportedActionsJoined)) := by
  refine ⟨?_, ?_, ?_⟩
  · simp [generate_code, generateLines, generateStepLine, h]
  · simp only [GenError.message, strAppend_assoc]
    rfl
  · apply strContains_parts "Unsupported action: " action
      (". Supported actions are: " ++ supportedActionsJoined)
    simp only [GenError.message, strAppend_assoc]

/-- C4 witness: the unclassifiable action name `jump` with an empty
parameters mapping. -/
theorem C4_unsupported_action_witness :
    generate_code ⟨"x", [⟨"jump", some []⟩]⟩ =
      .error (.unsupportedAction "jump" supportedActionsJoined) :=
  (C4_unsupported_action "x" "jump" [] (by decide)).1

/-- C5: a step with no parameters entry at all aborts with the
missing-field error, whose message mentions "parameters"; the check runs
before normalization and the support check, witnessed by the theorem
holding for every action string, supported or not; and a step with an
empty parameters mapping never produces the missing-field error. -/
theorem C5_missing_field (obj action : String) :
    (∃ e, generate_code ⟨obj, [⟨action, none⟩]⟩ = .error e ∧
        e.isMissingField = true ∧ strContains "parameters" e.message) ∧
    (∀ (params : List (String × Value)) (e : GenError),
        generate_code ⟨obj, [⟨action, some params⟩]⟩ = .error e →
        e.isMissingField = false) := by
  constructor
  · refine ⟨.missingField (pyReprStep ⟨action, none⟩), ?_, rfl, ?_⟩
    · simp [generate_code, generateLines, generateStepLine]
    · apply strContains_parts "Missing \x27" "parameters"
        ("\x27 field in action step: " ++ pyReprStep ⟨action, none⟩)
      simp only [GenError.message, strAppend_assoc]
      rfl
  · intro params e h
    cases hgl : generateStepLine ⟨action, some params⟩ with
    | ok line => simp [generate_code, generateLines, hgl] at h
    | error e2 =>
      have he : e2 = e := by simp [generate_code, generateLines, hgl] at h; exact h
      subst he
      rcases stepLine_error_class _ _ hgl with ⟨hc, -⟩ | hc | ⟨a, m, hc⟩ | hc
      · simp at hc
      · subst hc; rfl
      · subst hc; rfl
      · cases e2 <;> first | rfl | simp [isFloatConversionError] at hc

/-- C5 witness: the alias `goto` without a parameters field, and the
missing-parameters error of `goto` with an empty mapping, which is not
the missing-field kind. -/
theorem C5_missing_field_witness :
    (∃ e, generate_code ⟨"x", [⟨"goto", none⟩]⟩ = .error e ∧
        e.isMissingField = true ∧ strContains "parameters" e.message) ∧
    GenError.isMissingField (.missingParameters "move_to" ["position"]) = false :=
  ⟨(C5_missing_field "x" "goto").1,
   (C5_missing_field "x" "goto").2 [] (.missingParameters "move_to" ["position"]) rfl⟩

/-- C6: a supported action whose parameter mapping misses a non-empty
subset of its required parameters aborts with the missing-parameters
error naming exactly the absent required parameters, rendered in the
message after the canonical action name. -/
theorem C6_missing_parameters (obj action target : String)
    (params : List (String × Value)) (req : List String)
    (hsup : SUPPORTED_ACTIONS.lookup (normalizeAction action) = some target)
    (hreq : REQUIRED_PARAMETERS.lookup (normalizeAction action) = some req)
    (hmiss : req.filter (fun p => !hasParam params p) ≠ []) :
    generate_code ⟨obj, [⟨action, some params⟩]⟩ =
      .error (.missingParameters (normalizeAction action)
        (req.filter (fun p => !hasParam params p))) ∧
    GenError.message (.missingParameters (normalizeAction action)
        (req.filter (fun p => !hasParam params p))) =
      "Missing required parameters for action \x27" ++ normalizeAction action ++
        "\x27: " ++ String.intercalate ", " (req.filter (fun p => !hasParam params p)) := by
  refine ⟨?_, rfl⟩
  simp [generate_code, generateLines, generateStepLine, hsup, hreq, hmiss]

/-- C6 witness: `move_to` supplied only `object` aborts naming exactly
`position`. -/
theorem C6_missing_parameters_witness :
    generate_code ⟨"x", [⟨"move_to", some [("object", Value.vStr "cube")]⟩]⟩ =
      .error (.missingParameters "move_to" ["position"]) :=
  (C6_missing_parameters "x" "move_to" "self.robot.move_to_position"
    [("object", Value.vStr "cube")] ["position"] (by decide) (by decide) (by decide)).1

/-- The repr of a list of integer values is the comma-joined list of the
integers' decimal texts. -/
theorem pyReprList_ints (xs : List Int) :
    pyReprList (xs.map Value.vInt) =
      String.intercalate ", " (xs.map (fun n => toString n)) := by
  induction xs with
  | nil => rfl
  | cons a as ih =>
    cases as with
    | nil => rfl
    | cons b bs =>
      simp only [List.map_cons] at ih ⊢
      rw [show pyReprList (Value.vInt a :: Value.vInt b :: List.map Value.vInt bs) =
        toString a ++ ", " ++ pyReprList (Value.vInt b :: List.map Value.vInt bs)
        from rfl]
      rw [ih]
      simp only [intercalate_cons, joinSepTail, strAppend_assoc, strAppend_empty,
        strEmpty_append]

/-- The sign-and-magnitude decimal text of an integer is its `toString`
text. -/
theorem int_sign_natAbs_repr (n : Int) :
    (if decide (n < 0) then "-" else "") ++ toString n.natAbs = toString n := by
  cases n with
  | ofNat m =>
    have h : decide (Int.ofNat m < 0) = false := by
      rw [decide_eq_false_iff_not]
      exact Int.not_lt.mpr (Int.ofNat_nonneg m)
    rw [h]
    exact strEmpty_append _
  | negSucc m =>
    have h : decide (Int.negSucc m < 0) = true := by
      rw [decide_eq_true_eq]
      exact Int.negSucc_lt_zero m
    rw [h]
    rfl

/-- C7: parameter formatting dispatches on the parameter name.
`position` renders an integer-list value as the literal list preserving
order and values, and a string value as a position-lookup call; `object`
wraps `str` of any value in single quotes; `angle` coerces through
`float`: an integer of magnitude at most 2^53 — where binary64 is exact
and the rendering decimal — becomes its text followed by `.0`, and a
numeric string whose decimal lies in the faithful rendering domain
(`inReprDomain`) is parsed and rendered as its normalized numeric value,
sign included; any other name renders the default string form
unquoted. -/
theorem C7_format_dispatch :
    (∀ xs : List Int, formatParameterValue "position" (.vList (xs.map Value.vInt)) =
        .ok ("[" ++ String.intercalate ", " (xs.map (fun n => toString n)) ++ "]")) ∧
    (∀ s : String, formatParameterValue "position" (.vStr s) =
        .ok ("self.robot.get_position(\x27" ++ s ++ "\x27)")) ∧
    (∀ v : Value, formatParameterValue "object" v = .ok ("\x27" ++ pyStr v ++ "\x27")) ∧
    formatParameterValue "angle" (.vInt 90) = .ok "90.0" ∧
    (∀ n : Int, n.natAbs ≤ 2 ^ 53 →
        formatParameterValue "angle" (.vInt n) = .ok (toString n ++ ".0")) ∧
    (∀ (s : String) (d : PyFloatVal),
        pyParseFloat s = some d → inReprDomain d = true →
        formatParameterValue "angle" (.vStr s) =
          .ok ((if d.neg then "-" else "") ++ toString d.units ++ "." ++
            (if dropTrailingZeros d.frac = [] then "0"
             else String.mk (dropTrailingZeros d.frac)))) ∧
    (∀ (name : String) (v : Value),
        name ≠ "position" → name ≠ "object" → name ≠ "angle" →
        formatParameterValue name v = .ok (pyStr v)) := by
  refine ⟨?_, fun s => rfl, fun v => rfl, rfl, ?_, ?_, ?_⟩
  · intro xs
    rw [show formatParameterValue "position" (.vList (xs.map Value.vInt)) =
      .ok ("[" ++ pyReprList (xs.map Value.vInt) ++ "]") from rfl]
    rw [pyReprList_ints]
  · intro n hn
    rw [show formatParameterValue "angle" (.vInt n) =
      .ok (renderPyFloat ⟨decide (n < 0), n.natAbs, []⟩) from rfl]
    rw [show renderPyFloat ⟨decide (n < 0), n.natAbs, []⟩ =
      (if decide (n < 0) then "-" else "") ++ toString n.natAbs ++ "." ++ "0" from rfl]
    rw [int_sign_natAbs_repr]
    simp only [strAppend_assoc]
    rfl
  · intro s d hp hdom
    rw [show formatParameterValue "angle" (.vStr s) =
        (match pyFloat (.vStr s) with
          | .ok d2 => .ok (renderPyFloat d2)
          | .error e => .error e) from rfl]
    simp only [pyFloat, hp]
    rfl
  · intro name v h1 h2 h3
    simp [formatParameterValue, h1, h2, h3]

/-- C7 witness: the spec's round-trip formatting examples, plus the
repository test's fractional string, a negative integer, and a
negative-zero string. -/
theorem C7_format_dispatch_witness :
    formatParameterValue "position" (.vList [.vInt 1, .vInt 2, .vInt 3]) = .ok "[1, 2, 3]" ∧
    formatParameterValue "position" (.vStr "shelf") =
      .ok "self.robot.get_position(\x27shelf\x27)" ∧
    formatParameterValue "object" (.vStr "cube") = .ok "\x27cube\x27" ∧
    formatParameterValue "angle" (.vInt 90) = .ok "90.0" ∧
    formatParameterValue "angle" (.vInt (-90)) = .ok "-90.0" ∧
    formatParameterValue "angle" (.vStr "90") = .ok "90.0" ∧
    formatParameterValue "angle" (.vStr "45.5") = .ok "45.5" ∧
    formatParameterValue "angle" (.vStr "-0") = .ok "-0.0" ∧
    formatParameterValue "speed" (.vInt 2) = .ok "2" :=
  ⟨C7_format_dispatch.1 [1, 2, 3],
   C7_format_dispatch.2.1 "shelf",
   C7_format_dispatch.2.2.1 (.vStr "cube"),
   C7_format_dispatch.2.2.2.1,
   C7_format_dispatch.2.2.2.2.1 (-90) (by decide),
   C7_format_dispatch.2.2.2.2.2.1 "90" ⟨false, 90, []⟩ (by decide) (by decide),
   C7_format_dispatch.2.2.2.2.2.1 "45.5" ⟨false, 45, ['5']⟩ (by decide) (by decide),
   C7_format_dispatch.2.2.2.2.2.1 "-0" ⟨true, 0, []⟩ (by decide) (by decide),
   C7_format_dispatch.2.2.2.2.2.2 "speed" (.vInt 2) (by decide) (by decide) (by decide)⟩

/-- C8: compilation preserves step order — a successful compile emits one
invocation line per step, joined in sequence order between the fixed
header and trailer; in particular the goto-then-pickup scenario compiles
to a script with the `move_to` target line before the `pick_up` target
line. -/
theorem C8_order_preserved :
    (∀ (plan : TaskPlan) (s : String), generate_code plan = .ok s →
        ∃ lines, generateLines plan.action_sequence = .ok lines ∧
          lines.length = plan.action_sequence.length ∧
          s = headerText ++ (joinSepTail "\n" lines ++ ("\n" ++ trailerText))) ∧
    (∃ p t, generate_code ⟨"x",
        [⟨"goto", some [("position", Value.vList [.vInt 0, .vInt 0, .vInt 1])]⟩,
         ⟨"pickup", some [("object", Value.vStr "cube")]⟩]⟩ =
      .ok (p ++ ("        self.robot.move_to_position(position=[0, 0, 1])" ++
        ("\n" ++ ("        self.robot.pick_object(object=\x27cube\x27)" ++ t))))) := by
  constructor
  · intro plan s h
    cases hg : generateLines plan.action_sequence with
    | error e => simp [generate_code, hg] at h
    | ok lines =>
      refine ⟨lines, rfl, generateLines_length _ _ hg, ?_⟩
      have hs : s = String.intercalate "\n" (headerLines ++ lines ++ trailerLines) := by
        simp [generate_code, hg] at h
        exact h.symm
      rw [hs, script_shape]
  · exact ⟨headerText ++ "\n", "\n" ++ trailerText, rfl⟩

set_option maxRecDepth 4000 in
/-- C8 witness: the scenario plan compiled at its concrete result. -/
theorem C8_order_preserved_witness :
    ∃ lines, generateLines
        [⟨"goto", some [("position", Value.vList [.vInt 0, .vInt 0, .vInt 1])]⟩,
         ⟨"pickup", some [("object", Value.vStr "cube")]⟩] = .ok lines ∧
      lines.length = 2 ∧
      "# Auto-generated Robotic Task Execution Script\ndef execute_robot_task():\n    try:\n        self.robot.move_to_position(position=[0, 0, 1])\n        self.robot.pick_object(object=\x27cube\x27)\n    except Exception as e:\n        logging.error(f\x27Task execution failed: \x7be\x7d\x27)\n        raise" =
        headerText ++ (joinSepTail "\n" lines ++ ("\n" ++ trailerText)) :=
  C8_order_preserved.1
    ⟨"x", [⟨"goto", some [("position", Value.vList [.vInt 0, .vInt 0, .vInt 1])]⟩,
           ⟨"pickup", some [("object", Value.vStr "cube")]⟩]⟩
    _ rfl

/-- C9: every emitted script has the fixed skeleton — the header comment
and routine definition opening a protective block, and the trailer that
logs the caught error and re-raises — and an empty action sequence
compiles to exactly this skeleton with an empty body. -/
theorem C9_script_skeleton :
    (∀ (plan : TaskPlan) (s : String), generate_code plan = .ok s →
        ∃ mid, s = headerText ++ (mid ++ ("\n" ++ trailerText))) ∧
    (∀ obj : String, generate_code ⟨obj, []⟩ =
        .ok (headerText ++ ("" ++ ("\n" ++ trailerText)))) ∧
    headerText =
      "# Auto-generated Robotic Task Execution Script\ndef execute_robot_task():\n    try:" ∧
    trailerText =
      "    except Exception as e:\n        logging.error(f\x27Task execution failed: \x7be\x7d\x27)\n        raise" := by
  refine ⟨?_, ?_, rfl, rfl⟩
  · intro plan s h
    cases hg : generateLines plan.action_sequence with
    | error e => simp [generate_code, hg] at h
    | ok lines =>
      refine ⟨joinSepTail "\n" lines, ?_⟩
      have hs : s = String.intercalate "\n" (headerLines ++ lines ++ trailerLines) := by
        simp [generate_code, hg] at h
        exact h.symm
      rw [hs, script_shape]
  · intro obj
    rw [show generate_code ⟨obj, []⟩ =
      .ok (String.intercalate "\n" (headerLines ++ ([] : List String) ++ trailerLines))
      from rfl, script_shape]
    rfl

/-- C9 witness: the skeleton shape at the empty plan. -/
theorem C9_script_skeleton_witness :
    ∃ mid, headerText ++ ("" ++ ("\n" ++ trailerText)) =
      headerText ++ (mid ++ ("\n" ++ trailerText)) :=
  C9_script_skeleton.1 ⟨"x", []⟩ (headerText ++ ("" ++ ("\n" ++ trailerText))) rfl

end RobotCodeGen
